import Mathlib

/-
Shallow embedding of the webhook-catcher worker (src/index.ts).

The worker ingests flat JSON payloads into a key-value store keyed by
"<apiKey>:<eventId>", lists events per api key with cursor pagination,
scans the store for distinct api-key prefixes, and batch-deletes events.

Modelling conventions:
- Parsed JSON values are the inductive `Json` below; JavaScript's
  `typeof v === "object" && v !== null` is `Json.isObjectLike`.
- The KV backend (`env.WEBHOOKS`) is external; stateful handlers take the
  store (an association list) and return the updated store.  `list` pages
  produced by the backend are passed in as data (`KVListPage`), and the
  backend's `list`/`get` operations are function parameters where the code
  calls them mid-handler.
- Nondeterministic runtime inputs (`new Date().toISOString()`,
  `Math.random().toString(36)`) are explicit string parameters.
- JavaScript string primitives used by the code (`split`, `trim`,
  `slice`, `indexOf`, template interpolation) are embedded as structural
  functions over the character list `String.data`, so that every
  definition evaluates inside the kernel.
-/

namespace WebhookWorker

/-- Parsed JSON values, as produced by `request.json()`. -/
inductive Json where
  | str (s : String)
  | num (n : Int)
  | bool (b : Bool)
  | null
  | arr (elems : List Json)
  | obj (fields : List (String × Json))

/-- JavaScript test `typeof v === "object" && v !== null` on a parsed JSON
value: true exactly for objects and arrays. -/
def Json.isObjectLike : Json → Bool
  | .obj _ => true
  | .arr _ => true
  | _ => false

/-- Spec-side notion of a scalar JSON value: string, number, boolean or
null. -/
def Json.isScalar : Json → Bool
  | .str _ => true
  | .num _ => true
  | .bool _ => true
  | .null => true
  | _ => false

theorem Json.isScalar_eq_not_isObjectLike (j : Json) :
    j.isScalar = ! j.isObjectLike := by
  cases j <;> rfl

/-- JavaScript `String.prototype.split` with a one-character separator,
e.g. `allowlistRaw.split(",")`.  `"".split(",")` returns `[""]`, as in
JavaScript. -/
def jsSplit (s : String) (sep : Char) : List String :=
  (s.data.splitOn sep).map String.mk

/-- JavaScript `String.prototype.trim`: strip leading and trailing
whitespace (whitespace modelled by `Char.isWhitespace`). -/
def jsTrim (s : String) : String :=
  String.mk (((s.data.dropWhile Char.isWhitespace).reverse.dropWhile
    Char.isWhitespace).reverse)

/-- Worker configuration relevant to the modelled operations.  The other
`Env` fields of the source (RETENTION_DAYS, PANEL_USER, PANEL_PASS,
APP_NAME) configure TTL expiry and the excluded auth/UI layers and do not
affect the embedded behaviour. -/
structure Env where
  ALLOWED_API_KEYS : Option String

/-- Sentinel namespace for events submitted without a key
(`const NO_KEY = "NO-KEY"`). -/
def NO_KEY : String := "NO-KEY"

/-- Embeds `toEffectiveKey`: trim the supplied key and fall back to
`NO-KEY` when it is absent or trims to the empty string. -/
def toEffectiveKey (maybe : Option String) : String :=
  let trimmed := jsTrim (maybe.getD "")
  if trimmed.length > 0 then trimmed else NO_KEY

/-- The configured allowlist as computed inside `isApiKeyAllowed`:
`ALLOWED_API_KEYS` split on commas, entries trimmed, empty entries
dropped. -/
def parseAllowlist (env : Env) : List String :=
  (((jsSplit (env.ALLOWED_API_KEYS.getD "") ',').map jsTrim).filter
    (fun s => s.length > 0))

/-- Embeds `isApiKeyAllowed`: open when no allowlist is configured,
otherwise exact-string membership. -/
def isApiKeyAllowed (apiKey : String) (env : Env) : Bool :=
  let allowlist := parseAllowlist env
  if allowlist.length = 0 then true
  else allowlist.contains apiKey

/-- A stored webhook event (`EventRecord` in the source). -/
structure EventRecord where
  id : String
  apiKey : String
  receivedAt : String
  body : List (String × Json)

/-- The KV namespace contents: an association list from storage keys to
stored event records (the JSON serialisation of records is external to
the modelled logic, so values are kept structured). -/
structure KVStore where
  entries : List (String × EventRecord)

/-- KV `get`: the value stored under a key, if present. -/
def KVStore.get (st : KVStore) (k : String) : Option EventRecord :=
  (st.entries.find? (fun e => e.1 == k)).map (fun e => e.2)

/-- KV `put`: unconditional upsert.  (The `expirationTtl`/`metadata`
options of the source's put call configure backend expiry and are not
part of the modelled state.) -/
def KVStore.put (st : KVStore) (k : String) (v : EventRecord) : KVStore :=
  ⟨(k, v) :: st.entries.filter (fun e => ! (e.1 == k))⟩

/-- KV `delete`: removes the key if present; deleting an absent key is a
no-op. -/
def KVStore.delete (st : KVStore) (k : String) : KVStore :=
  ⟨st.entries.filter (fun e => ! (e.1 == k))⟩

/-- Embeds `makeStorageKey`: the storage key is the api key, a colon, and
the event id. -/
def makeStorageKey (apiKey : String) (id : String) : String :=
  apiKey ++ ":" ++ id

/-- Embeds `isFlatKeyValueObject`: every property value must not be an
object or array. -/
def isFlatKeyValueObject (fields : List (String × Json)) : Bool :=
  fields.all (fun kv => ! kv.2.isObjectLike)

/-- The observable outcomes of `handleWebhook`.  `forbidden` is the 403
"Forbidden api_key" response, `invalidJson` the 400 "Invalid JSON"
response, `notObject` the 400 "Body must be a flat JSON object of
key-value pairs" response, `nestedValue` the 400 "Body must be flat (no
nested objects/arrays)" response, and `ok id` the 200 success
response. -/
inductive WebhookResponse where
  | forbidden
  | invalidJson
  | notObject
  | nestedValue
  | ok (id : String)
deriving DecidableEq

/-- Embeds `handleWebhook`.  `rawKey` is the key read from the request by
`readApiKey` (header/query, excluded HTTP layer); `body` is the outcome
of `request.json()` (`none` models a parse failure caught by the
`try`/`catch`); `eventId` and `now` are the values produced at this call
by `generateEventId()` and `new Date().toISOString()`.  Returns the
response together with the updated store. -/
def handleWebhook (env : Env) (rawKey : Option String) (body : Option Json)
    (eventId : String) (now : String) (store : KVStore) :
    WebhookResponse × KVStore :=
  let apiKey := toEffectiveKey rawKey
  if ! isApiKeyAllowed apiKey env then
    (.forbidden, store)
  else
    match body with
    | none => (.invalidJson, store)
    | some b =>
      match b with
      | Json.obj fields =>
        if isFlatKeyValueObject fields then
          let record : EventRecord :=
            { id := eventId, apiKey := apiKey, receivedAt := now,
              body := fields }
          (.ok eventId, store.put (makeStorageKey apiKey eventId) record)
        else
          (.nestedValue, store)
      | _ => (.notObject, store)

/-- Claim C1: the payload validator accepts a parsed JSON value iff it is
a plain object (not an array, not null) whose every property value is a
scalar; a non-object top-level value is rejected as NotObject, an object
or array property value causes rejection as NestedValue, and on any
rejection nothing is persisted (the store is unchanged). -/
theorem c1_flat_payload_validation (env : Env) (rawKey : Option String)
    (b : Json) (eventId now : String) (store : KVStore)
    (hallow : isApiKeyAllowed (toEffectiveKey rawKey) env = true) :
    ((handleWebhook env rawKey (some b) eventId now store).1 =
        WebhookResponse.ok eventId ↔
      ∃ fields, b = Json.obj fields ∧
        fields.all (fun kv => kv.2.isScalar) = true)
    ∧ ((∀ fields, b ≠ Json.obj fields) →
        (handleWebhook env rawKey (some b) eventId now store).1 =
          WebhookResponse.notObject)
    ∧ (∀ fields, b = Json.obj fields →
        (∃ kv ∈ fields, kv.2.isObjectLike = true) →
        (handleWebhook env rawKey (some b) eventId now store).1 =
          WebhookResponse.nestedValue)
    ∧ ((handleWebhook env rawKey (some b) eventId now store).1 ≠
          WebhookResponse.ok eventId →
        (handleWebhook env rawKey (some b) eventId now store).2 = store) := by
  have hsc : ∀ fields : List (String × Json),
      fields.all (fun kv => kv.2.isScalar) = isFlatKeyValueObject fields := by
    intro fields
    unfold isFlatKeyValueObject
    have : (fun kv : String × Json => kv.2.isScalar) =
        (fun kv : String × Json => ! kv.2.isObjectLike) :=
      funext fun kv => Json.isScalar_eq_not_isObjectLike kv.2
    rw [this]
  cases b with
  | obj fields =>
    by_cases hf : isFlatKeyValueObject fields = true
    · refine ⟨?_, ?_, ?_, ?_⟩
      · simp [handleWebhook, hallow, hf]
        intro a b hab
        have h2 := (List.all_eq_true.mp hf) (a, b) hab
        rw [Json.isScalar_eq_not_isObjectLike]
        simpa using h2
      · intro h; exact absurd rfl (h fields)
      · rintro fields' hEq ⟨kv, hkv, hobj⟩
        cases hEq
        have := (List.all_eq_true.mp hf) kv hkv
        simp [hobj] at this
      · intro hne
        exfalso
        apply hne
        simp [handleWebhook, hallow, hf]
    · have hf' : isFlatKeyValueObject fields = false :=
        Bool.eq_false_iff.mpr hf
      refine ⟨?_, ?_, ?_, ?_⟩
      · simp [handleWebhook, hallow, hf']
        have hf2 : fields.all (fun kv => ! kv.2.isObjectLike) = false := hf'
        obtain ⟨kv, hkv, hp⟩ := List.all_eq_false.mp hf2
        refine ⟨kv.1, kv.2, hkv, ?_⟩
        rw [Json.isScalar_eq_not_isObjectLike]
        simpa using hp
      · intro h; exact absurd rfl (h fields)
      · intro fields' hEq _
        cases hEq
        simp [handleWebhook, hallow, hf']
      · intro _
        simp [handleWebhook, hallow, hf']
  | str s =>
    refine ⟨?_, ?_, ?_, ?_⟩ <;> simp [handleWebhook, hallow]
  | num n =>
    refine ⟨?_, ?_, ?_, ?_⟩ <;> simp [handleWebhook, hallow]
  | bool bv =>
    refine ⟨?_, ?_, ?_, ?_⟩ <;> simp [handleWebhook, hallow]
  | null =>
    refine ⟨?_, ?_, ?_, ?_⟩ <;> simp [handleWebhook, hallow]
  | arr xs =>
    refine ⟨?_, ?_, ?_, ?_⟩ <;> simp [handleWebhook, hallow]

/-- Witness for C1 at a concrete input: an open environment, the flat
object body from the README example, and an empty store. -/
theorem c1_flat_payload_validation_witness :
    isApiKeyAllowed (toEffectiveKey (some "demo")) ⟨none⟩ = true
    ∧ ((handleWebhook ⟨none⟩ (some "demo")
          (some (Json.obj [("orderId", Json.str "123"),
            ("status", Json.str "paid")])) "e1" "t1" ⟨[]⟩).1 =
        WebhookResponse.ok "e1" ↔
      ∃ fields,
        Json.obj [("orderId", Json.str "123"), ("status", Json.str "paid")] =
          Json.obj fields ∧
        fields.all (fun kv => kv.2.isScalar) = true) := by
  refine ⟨by decide, ?_⟩
  exact (c1_flat_payload_validation ⟨none⟩ (some "demo")
    (Json.obj [("orderId", Json.str "123"), ("status", Json.str "paid")])
    "e1" "t1" ⟨[]⟩ (by decide)).1

/-- Claim C6: the namespace gate accepts every key when the configured
allowlist (split on commas, trimmed, empty entries dropped) is empty, and
otherwise accepts exactly the exact-string members of the allowlist; a
rejected key makes the write return the Forbidden error with the store
unchanged. -/
theorem c6_namespace_gate (env : Env) :
    (parseAllowlist env = [] → ∀ k, isApiKeyAllowed k env = true)
    ∧ (parseAllowlist env ≠ [] →
        ∀ k, (isApiKeyAllowed k env = true ↔ k ∈ parseAllowlist env))
    ∧ (∀ rawKey body eventId now store,
        isApiKeyAllowed (toEffectiveKey rawKey) env = false →
        handleWebhook env rawKey body eventId now store =
          (WebhookResponse.forbidden, store)) := by
  refine ⟨?_, ?_, ?_⟩
  · intro h k
    simp [isApiKeyAllowed, h]
  · intro h k
    have hlen : (parseAllowlist env).length ≠ 0 := by
      simpa [List.length_eq_zero] using h
    simp [isApiKeyAllowed, hlen]
  · intro rawKey body eventId now store h
    simp [handleWebhook, h]

/-- Witness for C6 at a concrete two-entry allowlist: `"demo, other"`
parses to a non-empty allowlist and `"demo"` is accepted by exact
membership. -/
theorem c6_namespace_gate_witness :
    parseAllowlist ⟨some "demo, other"⟩ ≠ []
    ∧ (isApiKeyAllowed "demo" ⟨some "demo, other"⟩ = true ↔
        "demo" ∈ parseAllowlist ⟨some "demo, other"⟩) :=
  ⟨by decide, (c6_namespace_gate ⟨some "demo, other"⟩).2.1 (by decide) "demo"⟩

/-- JavaScript `x || d` for a number `x`: `none` models NaN; NaN and 0 are
falsy and select the default. -/
def jsNumOr (x : Option Rat) (d : Rat) : Rat :=
  match x with
  | none => d
  | some v => if v = 0 then d else v

/-- Embeds the limit computation of `handleListEvents`:
`Math.min(Math.max(Number(limitParam) || 50, 1), 200)`.  `parsed` is the
value of `Number(limitParam)` (`none` models NaN; an absent parameter
gives `Number(null) = 0`, an empty or non-numeric string gives 0 or
NaN). -/
def effectiveLimit (parsed : Option Rat) : Rat :=
  min (max (jsNumOr parsed 50) 1) 200

/-- The limit `listEventsForApiKey` passes to the store's `list` call,
`Math.min(1000, limit)`, applied to the effective limit computed by
`handleListEvents`. -/
def storeQueryLimit (parsed : Option Rat) : Rat :=
  min 1000 (effectiveLimit parsed)

/-- Claim C3 counterexample: for limit parameter `"0"` (so
`Number(limitParam) = 0`), the code's `Number(limitParam) || 50` takes
the default 50, whereas clamping 0 into [1, 200], as the claim states
for parsable parameters, would give 1. -/
theorem c3_counterexample :
    effectiveLimit (some 0) = 50 ∧ min (max (0 : Rat) 1) 200 = 1 ∧
      effectiveLimit (some 0) ≠ min (max (0 : Rat) 1) 200 := by
  decide

/-- Claim C3 (amended): the effective limit is 50 when the parameter is
absent, unparsable, or parses to 0 (all falsy cases of
`Number(limitParam) || 50`), and is otherwise the parsed value clamped
into [1, 200]; the effective limit always lies in [1, 200], and the
store is queried with `min(1000, limit)`, which equals the effective
limit and lies in [1, 1000]. -/
theorem c3_limit_clamp (parsed : Option Rat) :
    (parsed = none → effectiveLimit parsed = 50)
    ∧ (parsed = some 0 → effectiveLimit parsed = 50)
    ∧ (∀ x, parsed = some x → x ≠ 0 →
        effectiveLimit parsed = min (max x 1) 200)
    ∧ 1 ≤ effectiveLimit parsed ∧ effectiveLimit parsed ≤ 200
    ∧ storeQueryLimit parsed = effectiveLimit parsed
    ∧ 1 ≤ storeQueryLimit parsed ∧ storeQueryLimit parsed ≤ 1000 := by
  have h50 : max (50 : Rat) 1 = 50 := max_eq_left (by norm_num)
  have h1 : 1 ≤ effectiveLimit parsed := by
    unfold effectiveLimit
    exact le_min (le_max_right _ _) (by norm_num)
  have h200 : effectiveLimit parsed ≤ 200 := min_le_right _ _
  have heq : storeQueryLimit parsed = effectiveLimit parsed := by
    unfold storeQueryLimit
    exact min_eq_right (le_trans h200 (by norm_num))
  refine ⟨?_, ?_, ?_, h1, h200, heq, ?_, ?_⟩
  · rintro rfl
    unfold effectiveLimit jsNumOr
    rw [h50]
    exact min_eq_left (by norm_num)
  · rintro rfl
    have hz : jsNumOr (some 0) 50 = 50 := by simp [jsNumOr]
    unfold effectiveLimit
    rw [hz, h50]
    exact min_eq_left (by norm_num)
  · rintro x rfl hx
    unfold effectiveLimit jsNumOr
    simp [hx]
  · rw [heq]; exact h1
  · rw [heq]; exact le_trans h200 (by norm_num)

/-- Witness for C3 (amended) at the parsed parameter value 7: a nonzero
parsable value is clamped. -/
theorem c3_limit_clamp_witness :
    (7 : Rat) ≠ 0 ∧ effectiveLimit (some 7) = min (max (7 : Rat) 1) 200 :=
  ⟨by norm_num, (c3_limit_clamp (some 7)).2.2.1 7 rfl (by norm_num)⟩

/-- Embeds the timestamp mangling of `generateEventId`:
`new Date().toISOString().replace(/[:.]/g, "-")`. -/
def replaceColonDot (s : String) : String :=
  String.mk (s.data.map (fun c => if c = ':' ∨ c = '.' then '-' else c))

/-- Embeds the random-suffix selection of `generateEventId`:
`Math.random().toString(36).slice(2, 10)` applied to the string returned
by `toString(36)`. -/
def randSuffix (s : String) : String :=
  String.mk ((s.data.drop 2).take 8)

/-- Embeds `generateEventId`.  `isoNow` is the value of
`new Date().toISOString()` and `rand36` the value of
`Math.random().toString(36)` at this call. -/
def generateEventId (isoNow rand36 : String) : String :=
  replaceColonDot isoNow ++ "_" ++ randSuffix rand36

/-- The substring of a key name before its first `':'` (the whole name
when there is none), as computed by `handleListDistinctKeys` via
`name.indexOf(":")` and `name.slice(0, idx)`. -/
def beforeColon (name : String) : String :=
  String.mk (name.data.takeWhile (fun c => c != ':'))

/-- Membership in the 36-symbol alphabet `0-9a-z` used by
`Number.prototype.toString(36)`. -/
def isBase36 (c : Char) : Bool :=
  c.isDigit || ('a' ≤ c && c ≤ 'z')

theorem takeWhile_append_of_all {α : Type} (p : α → Bool) (l1 l2 : List α)
    (h : ∀ a ∈ l1, p a = true) :
    (l1 ++ l2).takeWhile p = l1 ++ l2.takeWhile p := by
  induction l1 with
  | nil => simp
  | cons a as ih =>
    have ha : p a = true := h a (List.mem_cons_self a as)
    simp [List.takeWhile_cons, ha,
      ih (fun x hx => h x (List.mem_cons_of_mem a hx))]

/-- Claim C8: a generated event id contains no `':'` (given that the
`toString(36)` output contains none, which holds of every value
`Math.random().toString(36)` can produce), so for every namespace that
contains no `':'`, the prefix of `namespace ++ ":" ++ id` before its
first `':'` is exactly the namespace. -/
theorem c8_id_colon_free_roundtrip (ns isoNow s : String)
    (hs : ∀ c ∈ s.data, c ≠ ':')
    (hns : ∀ c ∈ ns.data, c ≠ ':') :
    (∀ c ∈ (generateEventId isoNow s).data, c ≠ ':')
    ∧ beforeColon (makeStorageKey ns (generateEventId isoNow s)) = ns := by
  have hid : ∀ c ∈ (generateEventId isoNow s).data, c ≠ ':' := by
    intro c hc
    have hdata : (generateEventId isoNow s).data =
        (replaceColonDot isoNow).data ++ '_' :: (randSuffix s).data := by
      unfold generateEventId
      rw [String.data_append, String.data_append, List.append_assoc]
      rfl
    rw [hdata] at hc
    rcases List.mem_append.mp hc with h1 | h2
    · have h1' : c ∈ isoNow.data.map
          (fun c => if c = ':' ∨ c = '.' then '-' else c) := h1
      obtain ⟨c0, _, hc0⟩ := List.mem_map.mp h1'
      by_cases hcase : c0 = ':' ∨ c0 = '.'
      · rw [if_pos hcase] at hc0
        rw [← hc0]; decide
      · rw [if_neg hcase] at hc0
        rw [← hc0]
        intro hEq
        exact hcase (Or.inl hEq)
    · rcases List.mem_cons.mp h2 with rfl | h3
      · decide
      · have hmem : c ∈ s.data :=
          List.mem_of_mem_drop (List.mem_of_mem_take h3)
        exact hs c hmem
  refine ⟨hid, ?_⟩
  have hkey : (makeStorageKey ns (generateEventId isoNow s)).data =
      ns.data ++ ':' :: (generateEventId isoNow s).data := by
    unfold makeStorageKey
    rw [String.data_append, String.data_append, List.append_assoc]
    rfl
  unfold beforeColon
  rw [hkey]
  have hall : ∀ a ∈ ns.data, (a != ':') = true := by
    intro a ha
    simpa using hns a ha
  rw [takeWhile_append_of_all _ _ _ hall]
  have hstop : (':' :: (generateEventId isoNow s).data).takeWhile
      (fun c => c != ':') = [] := by
    simp [List.takeWhile_cons]
  rw [hstop, List.append_nil]

/-- Witness for C8 at a concrete namespace, timestamp and random string:
encoding then prefix extraction returns the namespace `"demo"`. -/
theorem c8_id_colon_free_roundtrip_witness :
    (∀ c ∈ "0.k3j9qw1z".data, c ≠ ':')
    ∧ (∀ c ∈ "demo".data, c ≠ ':')
    ∧ beforeColon (makeStorageKey "demo"
        (generateEventId "2026-01-02T03:04:05.678Z" "0.k3j9qw1z")) =
      "demo" :=
  ⟨by decide, by decide,
    (c8_id_colon_free_roundtrip "demo" "2026-01-02T03:04:05.678Z"
      "0.k3j9qw1z" (by decide) (by decide)).2⟩

/-- Claim C9 counterexample: `Math.random()` can return 0.5, for which
`toString(36)` is `"0.i"`; the suffix `slice(2, 10)` is then `"i"`, of
length 1, not an 8-character suffix as the claim states. -/
theorem c9_counterexample :
    generateEventId "2026-01-02T03:04:05.678Z" "0.i" =
      "2026-01-02T03-04-05-678Z_i"
    ∧ (randSuffix "0.i").length ≠ 8 := by
  decide

/-- Claim C9 (amended): a generated id is the concatenation of the
timestamp with every non-alphanumeric character replaced by `'-'` (for
timestamps made of alphanumerics, `'-'`, `':'` and `'.'`, as ISO
timestamps are), an underscore, and a random suffix of at most 8
characters drawn from the 36-symbol alphabet `0-9a-z` (exactly 8
whenever the random fraction's base-36 expansion is long enough). -/
theorem c9_event_id_format (isoNow s : String)
    (hiso : ∀ c ∈ isoNow.data,
      c.isAlphanum = true ∨ c = '-' ∨ c = ':' ∨ c = '.')
    (hrand : ∀ c ∈ s.data.drop 2, isBase36 c = true) :
    generateEventId isoNow s = replaceColonDot isoNow ++ "_" ++ randSuffix s
    ∧ replaceColonDot isoNow =
        String.mk (isoNow.data.map (fun c => if c.isAlphanum then c else '-'))
    ∧ (randSuffix s).length ≤ 8
    ∧ (∀ c ∈ (randSuffix s).data, isBase36 c = true) := by
  refine ⟨rfl, ?_, ?_, ?_⟩
  · unfold replaceColonDot
    congr 1
    apply List.map_congr_left
    intro a ha
    rcases hiso a ha with h | h | h | h
    · have h1 : ¬ (a = ':' ∨ a = '.') := by
        rintro (rfl | rfl) <;> exact absurd h (by decide)
      rw [if_neg h1, if_pos h]
    · subst h; decide
    · subst h; decide
    · subst h; decide
  · have hlen : (randSuffix s).length = ((s.data.drop 2).take 8).length := rfl
    rw [hlen, List.length_take]
    exact min_le_left _ _
  · intro c hc
    exact hrand c (List.mem_of_mem_take hc)

/-- Witness for C9 (amended) at the concrete timestamp and random string
of the C8 witness. -/
theorem c9_event_id_format_witness :
    (∀ c ∈ "2026-01-02T03:04:05.678Z".data,
      Char.isAlphanum c = true ∨ c = '-' ∨ c = ':' ∨ c = '.')
    ∧ (randSuffix "0.k3j9qw1z").length ≤ 8 :=
  ⟨by decide,
    (c9_event_id_format "2026-01-02T03:04:05.678Z" "0.k3j9qw1z"
      (by decide) (by decide)).2.2.1⟩

/-- One page returned by the backend's `list` call
(`KVNamespaceListResult`).  `list_complete` is optional to mirror the
code's defensive `"list_complete" in page` check; `cursor` is present on
incomplete pages per the backend contract. -/
structure KVListPage where
  keys : List String
  list_complete : Option Bool
  cursor : Option String

/-- The result shape of `listEventsForApiKey`. -/
structure ListEventsResult where
  events : List EventRecord
  cursor : Option String
  listComplete : Bool

/-- Embeds `listEventsForApiKey`.  `listFn` is `env.WEBHOOKS.list`
(arguments: prefix, cursor, limit) and `getFn` is
`env.WEBHOOKS.get(name, "json")` (`none` models a key whose value is
absent at fetch time); both are backend calls the handler performs
mid-flight.  The handler lists one page with prefix `apiKey ++ ":"` and
limit `min 1000 limit`, fetches every listed key, and drops the keys
whose fetch returned null. -/
def listEventsForApiKey
    (listFn : String → Option String → Nat → KVListPage)
    (getFn : String → Option EventRecord)
    (apiKey : String) (limit : Nat) (cursor : Option String) :
    ListEventsResult :=
  let pfx := apiKey ++ ":"
  let page := listFn pfx cursor (min 1000 limit)
  let results := page.keys.map (fun k => getFn k)
  let events := results.filterMap (fun r => r)
  { events := events
    cursor := if page.list_complete = some false then page.cursor else none
    listComplete := page.list_complete.getD true }

/-- Claim C2: a single page returned by the listing service contains at
most `limit` events (given that the backend's `list` honours its limit),
and the returned cursor is absent exactly when the returned
`listComplete` flag is true (given that the backend supplies a cursor on
incomplete pages, as its contract requires). -/
theorem c2_page_limit_and_cursor
    (listFn : String → Option String → Nat → KVListPage)
    (getFn : String → Option EventRecord)
    (apiKey : String) (limit : Nat) (cursor : Option String)
    (hlim : (listFn (apiKey ++ ":") cursor (min 1000 limit)).keys.length ≤
      min 1000 limit)
    (hwf : (listFn (apiKey ++ ":") cursor (min 1000 limit)).list_complete =
        some false →
      (listFn (apiKey ++ ":") cursor (min 1000 limit)).cursor ≠ none) :
    (listEventsForApiKey listFn getFn apiKey limit cursor).events.length ≤
      limit
    ∧ ((listEventsForApiKey listFn getFn apiKey limit cursor).cursor = none ↔
        (listEventsForApiKey listFn getFn apiKey limit cursor).listComplete =
          true) := by
  constructor
  · have h1 : (listEventsForApiKey listFn getFn apiKey limit cursor).events =
        ((listFn (apiKey ++ ":") cursor (min 1000 limit)).keys.map
          getFn).filterMap id := rfl
    rw [h1]
    calc (((listFn (apiKey ++ ":") cursor (min 1000 limit)).keys.map
          getFn).filterMap id).length
        ≤ ((listFn (apiKey ++ ":") cursor (min 1000 limit)).keys.map
            getFn).length := List.length_filterMap_le _ _
      _ = (listFn (apiKey ++ ":") cursor (min 1000 limit)).keys.length :=
          List.length_map _ _
      _ ≤ min 1000 limit := hlim
      _ ≤ limit := Nat.min_le_right _ _
  · have hc : (listEventsForApiKey listFn getFn apiKey limit cursor).cursor =
        (if (listFn (apiKey ++ ":") cursor
              (min 1000 limit)).list_complete = some false
         then (listFn (apiKey ++ ":") cursor (min 1000 limit)).cursor
         else none) := rfl
    have hl : (listEventsForApiKey listFn getFn apiKey limit
          cursor).listComplete =
        ((listFn (apiKey ++ ":") cursor
          (min 1000 limit)).list_complete).getD true := rfl
    rw [hc, hl]
    rcases hflag : (listFn (apiKey ++ ":") cursor
        (min 1000 limit)).list_complete with _ | b
    · simp
    · cases b
      · simp [hwf hflag]
      · simp

/-- Witness for C2 at a concrete one-key backend page that is complete. -/
theorem c2_page_limit_and_cursor_witness :
    (((fun _ _ _ => KVListPage.mk ["demo:a"] (some true) none) :
        String → Option String → Nat → KVListPage)
      ("demo" ++ ":") none (min 1000 5)).keys.length ≤ min 1000 5
    ∧ (listEventsForApiKey
        (fun _ _ _ => KVListPage.mk ["demo:a"] (some true) none)
        (fun _ => none) "demo" 5 none).events.length ≤ 5 := by
  refine ⟨by decide, ?_⟩
  exact (c2_page_limit_and_cursor
    (fun _ _ _ => KVListPage.mk ["demo:a"] (some true) none)
    (fun _ => none) "demo" 5 none (by decide) (by simp)).1

/-- Claim C7: the listing service returns exactly the hydrated values of
the listed keys whose `get` is non-absent, in key-listing order, and the
returned cursor and `listComplete` flag are computed from the key-listing
page alone — they do not depend on the `get` outcomes, so dropped keys
never change them. -/
theorem c7_hydration_drops_missing
    (listFn : String → Option String → Nat → KVListPage)
    (getFn : String → Option EventRecord)
    (apiKey : String) (limit : Nat) (cursor : Option String) :
    (listEventsForApiKey listFn getFn apiKey limit cursor).events =
      (listFn (apiKey ++ ":") cursor (min 1000 limit)).keys.filterMap getFn
    ∧ (listEventsForApiKey listFn getFn apiKey limit cursor).cursor =
        (if (listFn (apiKey ++ ":") cursor
              (min 1000 limit)).list_complete = some false
         then (listFn (apiKey ++ ":") cursor (min 1000 limit)).cursor
         else none)
    ∧ (listEventsForApiKey listFn getFn apiKey limit cursor).listComplete =
        ((listFn (apiKey ++ ":") cursor
          (min 1000 limit)).list_complete).getD true
    ∧ (∀ getFn' : String → Option EventRecord,
        (listEventsForApiKey listFn getFn' apiKey limit cursor).cursor =
          (listEventsForApiKey listFn getFn apiKey limit cursor).cursor
        ∧ (listEventsForApiKey listFn getFn' apiKey limit
              cursor).listComplete =
            (listEventsForApiKey listFn getFn apiKey limit
              cursor).listComplete) := by
  refine ⟨?_, rfl, rfl, fun _ => ⟨rfl, rfl⟩⟩
  have h1 : (listEventsForApiKey listFn getFn apiKey limit cursor).events =
      ((listFn (apiKey ++ ":") cursor (min 1000 limit)).keys.map
        getFn).filterMap id := rfl
  rw [h1, List.filterMap_map]
  rfl

/-- Witness for C7 at a concrete backend whose single listed key has
vanished before the fetch: the event list is empty. -/
theorem c7_hydration_drops_missing_witness :
    (listEventsForApiKey (fun _ _ _ => KVListPage.mk ["demo:a"] (some true) none)
      (fun _ => none) "demo" 5 none).events =
      ((fun (_ : String) (_ : Option String) (_ : Nat) =>
          KVListPage.mk ["demo:a"] (some true) none)
        ("demo" ++ ":") none (min 1000 5)).keys.filterMap
        (fun _ => (none : Option EventRecord)) :=
  (c7_hydration_drops_missing
    (fun _ _ _ => KVListPage.mk ["demo:a"] (some true) none)
    (fun _ => none) "demo" 5 none).1

/- JavaScript template interpolation of a JSON value, as in the
backtick-template `$(apiKey):$(id)` of the source — characters of
`String(v)`: strings verbatim, numbers and booleans rendered, null as
"null", arrays joined with commas (null elements becoming empty),
objects as "[object Object]". -/
mutual
def jsTemplateChars : Json → List Char
  | .str s => s.data
  | .num n => (toString n).data
  | .bool true => "true".data
  | .bool false => "false".data
  | .null => "null".data
  | .arr xs => jsTemplateArr xs
  | .obj _ => "[object Object]".data
def jsTemplateArr : List Json → List Char
  | [] => []
  | [x] => jsTemplateElem x
  | x :: y :: rest => jsTemplateElem x ++ ',' :: jsTemplateArr (y :: rest)
def jsTemplateElem : Json → List Char
  | .null => []
  | x => jsTemplateChars x
end

/-- String form of `jsTemplateChars`. -/
def jsTemplateStr (j : Json) : String :=
  String.mk (jsTemplateChars j)

/-- Property access on the parsed body, as in
`const (key, ids) = payload`: only plain objects have the destructured
properties (arrays lack "key"/"ids"); duplicate JSON keys resolve to the
last occurrence, as `JSON.parse` keeps the last. -/
def jsGetField (p : Json) (name : String) : Option Json :=
  match p with
  | .obj fields =>
    fields.foldl (fun acc kv => if kv.1 = name then some kv.2 else acc) none
  | _ => none

/-- Models `toEffectiveKey(key ?? null)` on the destructured `key`
property: an absent or JSON-null key falls back to `NO-KEY`; a string
key is trimmed with the `NO-KEY` fallback; on any other JSON value
`.trim()` throws a TypeError (caught by the fetch wrapper), modelled as
`Except.error`. -/
def keyFieldEffective : Option Json → Except Unit String
  | none => .ok (toEffectiveKey none)
  | some Json.null => .ok (toEffectiveKey none)
  | some (Json.str s) => .ok (toEffectiveKey (some s))
  | some _ => .error ()

/-- The observable outcomes of `handleDeleteEvents`: `unauthorized` the
401 from Basic auth, `invalidJson` the 400 "Invalid JSON", `bodyNotJson`
the 400 "Body must be JSON", `forbidden` the 403 "Forbidden api_key",
`idsInvalid` the 400 "ids must be a non-empty array", `thrown` a
TypeError escaping to the fetch wrapper (500), and `ok n` the 200
response reporting `deleted = n`. -/
inductive DeleteResponse where
  | unauthorized
  | invalidJson
  | bodyNotJson
  | forbidden
  | idsInvalid
  | thrown
  | ok (deleted : Nat)
deriving DecidableEq

/-- Embeds `handleDeleteEvents`.  `authOk` is the outcome of
`requireBasicAuth` (excluded auth layer); `payload` is the outcome of
`request.json()` (`none` models a parse failure).  The guard
`!payload || typeof payload !== "object"` passes exactly for parsed
objects and arrays, i.e. `Json.isObjectLike`. -/
def handleDeleteEvents (env : Env) (authOk : Bool) (payload : Option Json)
    (store : KVStore) : DeleteResponse × KVStore :=
  if ! authOk then (.unauthorized, store)
  else
    match payload with
    | none => (.invalidJson, store)
    | some p =>
      if ! p.isObjectLike then (.bodyNotJson, store)
      else
        match keyFieldEffective (jsGetField p "key") with
        | .error _ => (.thrown, store)
        | .ok apiKey =>
          if ! isApiKeyAllowed apiKey env then (.forbidden, store)
          else
            match jsGetField p "ids" with
            | some (Json.arr ids) =>
              if ids.length = 0 then (.idsInvalid, store)
              else
                let limited := ids.take 500
                let keysToDelete := limited.map
                  (fun id => makeStorageKey apiKey (jsTemplateStr id))
                (.ok keysToDelete.length,
                  keysToDelete.foldl KVStore.delete store)
            | _ => (.idsInvalid, store)

theorem find?_filter_ne (entries : List (String × EventRecord))
    (k' k : String) :
    (entries.filter (fun e => ! (e.1 == k'))).find? (fun e => e.1 == k) =
      if k = k' then none
      else entries.find? (fun e => e.1 == k) := by
  induction entries with
  | nil => by_cases h : k = k' <;> simp [h]
  | cons a as ih =>
    by_cases h1 : a.1 = k'
    · by_cases h2 : k = k'
      · simp [List.filter_cons, h1, ih, h2]
      · have h3 : ¬ a.1 = k := fun hEq => h2 (by rw [← hEq, h1])
        have h4 : (a.1 == k) = false := by simp [h3]
        have h5 : (k' == k) = false := by simp [Ne.symm h2]
        simp [List.filter_cons, h1, ih, h2, List.find?_cons, h4, h5]
    · by_cases h3 : a.1 = k
      · by_cases h2 : k = k'
        · exact absurd (h3.trans h2) h1
        · simp [List.filter_cons, h1, List.find?_cons, h3, h2]
      · simp [List.filter_cons, h1, List.find?_cons, h3, ih]

theorem KVStore.get_delete (st : KVStore) (k' k : String) :
    (st.delete k').get k = if k = k' then none else st.get k := by
  unfold KVStore.get KVStore.delete
  rw [find?_filter_ne]
  by_cases h : k = k' <;> simp [h]

theorem KVStore.get_foldl_delete (ks : List String) (st : KVStore)
    (k : String) :
    (ks.foldl KVStore.delete st).get k =
      if k ∈ ks then none else st.get k := by
  induction ks generalizing st with
  | nil => simp
  | cons a as ih =>
    rw [List.foldl_cons, ih]
    by_cases hmem : k ∈ as
    · simp [hmem]
    · by_cases hk : k = a
      · simp [hmem, hk, KVStore.get_delete]
      · simp [hmem, hk, KVStore.get_delete]

/-- Claim C4: with auth passed, an object body, a resolvable key and an
allowed namespace, batch delete with a non-empty ids array deletes
exactly the storage keys derived from the first `min(|ids|, 500)`
entries, reports that count as `deleted`, and leaves every other key's
value unchanged (in particular keys derived from entries beyond the
first 500 that do not also occur among the first 500). -/
theorem c4_batch_delete (env : Env) (p : Json) (ids : List Json)
    (store : KVStore) (apiKey : String)
    (hobj : p.isObjectLike = true)
    (hkey : keyFieldEffective (jsGetField p "key") = Except.ok apiKey)
    (hallow : isApiKeyAllowed apiKey env = true)
    (hids : jsGetField p "ids" = some (Json.arr ids))
    (hne : ids ≠ []) :
    (handleDeleteEvents env true (some p) store).1 =
      DeleteResponse.ok (min ids.length 500)
    ∧ (∀ k, k ∈ (ids.take 500).map
          (fun id => makeStorageKey apiKey (jsTemplateStr id)) →
        (handleDeleteEvents env true (some p) store).2.get k = none)
    ∧ (∀ k, k ∉ (ids.take 500).map
          (fun id => makeStorageKey apiKey (jsTemplateStr id)) →
        (handleDeleteEvents env true (some p) store).2.get k =
          store.get k) := by
  have hlen0 : ids.length ≠ 0 := by
    simpa [List.length_eq_zero] using hne
  have hred : handleDeleteEvents env true (some p) store =
      (DeleteResponse.ok ((ids.take 500).map
          (fun id => makeStorageKey apiKey (jsTemplateStr id))).length,
        ((ids.take 500).map
          (fun id => makeStorageKey apiKey (jsTemplateStr id))).foldl
          KVStore.delete store) := by
    simp [handleDeleteEvents, hobj, hkey, hallow, hids, hlen0]
  rw [hred]
  refine ⟨?_, ?_, ?_⟩
  · simp [List.length_take, Nat.min_comm]
  · intro k hk
    rw [KVStore.get_foldl_delete, if_pos hk]
  · intro k hk
    rw [KVStore.get_foldl_delete, if_neg hk]

/-- Witness for C4 at a concrete one-id delete request against an empty
store and an open allowlist. -/
theorem c4_batch_delete_witness :
    keyFieldEffective (jsGetField (Json.obj [("key", Json.str "demo"),
        ("ids", Json.arr [Json.str "a"])]) "key") = Except.ok "demo"
    ∧ (handleDeleteEvents ⟨none⟩ true
        (some (Json.obj [("key", Json.str "demo"),
          ("ids", Json.arr [Json.str "a"])])) ⟨[]⟩).1 =
      DeleteResponse.ok (min 1 500) :=
  ⟨rfl,
    (c4_batch_delete ⟨none⟩
      (Json.obj [("key", Json.str "demo"), ("ids", Json.arr [Json.str "a"])])
      [Json.str "a"] ⟨[]⟩ "demo" rfl rfl (by decide) rfl (by simp)).1⟩

/-- Claim C10: with auth passed, an object body, a resolvable key and an
allowed namespace, a delete request whose body lacks an `ids` field, has
a non-array `ids`, or has an empty `ids` array gets the "ids must be a
non-empty array" error and leaves the store untouched. -/
theorem c10_delete_requires_ids (env : Env) (p : Json) (store : KVStore)
    (apiKey : String)
    (hobj : p.isObjectLike = true)
    (hkey : keyFieldEffective (jsGetField p "key") = Except.ok apiKey)
    (hallow : isApiKeyAllowed apiKey env = true)
    (hids : jsGetField p "ids" = none
      ∨ (∃ j, jsGetField p "ids" = some j ∧ ∀ l, j ≠ Json.arr l)
      ∨ jsGetField p "ids" = some (Json.arr [])) :
    handleDeleteEvents env true (some p) store =
      (DeleteResponse.idsInvalid, store) := by
  rcases hids with h | ⟨j, hj, hnl⟩ | h
  · simp [handleDeleteEvents, hobj, hkey, hallow, h]
  · cases j with
    | arr l => exact absurd rfl (hnl l)
    | str s => simp [handleDeleteEvents, hobj, hkey, hallow, hj]
    | num n => simp [handleDeleteEvents, hobj, hkey, hallow, hj]
    | bool b => simp [handleDeleteEvents, hobj, hkey, hallow, hj]
    | null => simp [handleDeleteEvents, hobj, hkey, hallow, hj]
    | obj fields => simp [handleDeleteEvents, hobj, hkey, hallow, hj]
  · simp [handleDeleteEvents, hobj, hkey, hallow, h]

/-- Witness for C10 at a concrete body that lacks an `ids` field. -/
theorem c10_delete_requires_ids_witness :
    jsGetField (Json.obj [("key", Json.str "demo")]) "ids" = none
    ∧ handleDeleteEvents ⟨none⟩ true
        (some (Json.obj [("key", Json.str "demo")])) ⟨[]⟩ =
      (DeleteResponse.idsInvalid, ⟨[]⟩) :=
  ⟨rfl,
    c10_delete_requires_ids ⟨none⟩ (Json.obj [("key", Json.str "demo")])
      ⟨[]⟩ "demo" rfl rfl (by decide) (Or.inl rfl)⟩

/-- JavaScript `Set.prototype.add`: insert at the end when not already
present (the source accumulates prefixes in `new Set()`). -/
def setAdd (l : List String) (x : String) : List String :=
  if x ∈ l then l else l ++ [x]

/-- The inner `for` loop of `handleListDistinctKeys` over one page's
keys: extract the prefix before the first `':'` of each key name and add
it to the set unless it is empty (falsy) or `NO-KEY`. -/
def scanPageAcc (keys : List String) (acc : List String) : List String :=
  keys.foldl
    (fun s name =>
      if beforeColon name ≠ "" ∧ beforeColon name ≠ NO_KEY
      then setAdd s (beforeColon name) else s) acc

/-- The `while` loop of `handleListDistinctKeys`.  `pages` is the
sequence of responses `env.WEBHOOKS.list({ cursor, limit: 1000 })`
produces across the loop's iterations (the code passes each incomplete
page's cursor back opaquely, so only the response sequence matters);
`scanned` counts keys processed so far, checked against the 2000-key
budget at the top of each iteration; the loop breaks when a page is not
reported incomplete. -/
def distinctLoop (pages : List KVListPage) (scanned : Nat)
    (acc : List String) : List String :=
  match pages with
  | [] => acc
  | page :: rest =>
    if scanned < 2000 then
      if page.list_complete = some false then
        distinctLoop rest (scanned + page.keys.length)
          (scanPageAcc page.keys acc)
      else scanPageAcc page.keys acc
    else acc

/-- The key names the loop actually processes, following the same
control flow as `distinctLoop`. -/
def scannedKeys (pages : List KVListPage) (scanned : Nat) : List String :=
  match pages with
  | [] => []
  | page :: rest =>
    if scanned < 2000 then
      if page.list_complete = some false then
        page.keys ++ scannedKeys rest (scanned + page.keys.length)
      else page.keys
    else []

/-- Total number of keys in a sequence of pages. -/
def pagesKeyCount (pages : List KVListPage) : Nat :=
  (pages.map (fun p => p.keys.length)).sum

/-- Embeds `handleListDistinctKeys`: run the scan loop from an empty set
and zero scanned keys, then sort ascending (the `localeCompare`
comparator is modelled as code-point order). -/
def handleListDistinctKeys (pages : List KVListPage) : List String :=
  List.insertionSort (· ≤ ·) (distinctLoop pages 0 [])

theorem mem_setAdd (l : List String) (y x : String) :
    x ∈ setAdd l y ↔ x ∈ l ∨ x = y := by
  unfold setAdd
  by_cases h : y ∈ l
  · rw [if_pos h]
    constructor
    · exact Or.inl
    · rintro (hx | rfl)
      · exact hx
      · exact h
  · rw [if_neg h]
    simp [List.mem_append]

theorem nodup_setAdd (l : List String) (y : String) (h : l.Nodup) :
    (setAdd l y).Nodup := by
  unfold setAdd
  by_cases hy : y ∈ l
  · rw [if_pos hy]
    exact h
  · rw [if_neg hy]
    simp [List.nodup_append, h, hy]

theorem mem_scanPageAcc (keys : List String) (acc : List String)
    (x : String) :
    x ∈ scanPageAcc keys acc ↔
      x ∈ acc ∨ (x ≠ "" ∧ x ≠ NO_KEY ∧ ∃ k ∈ keys, beforeColon k = x) := by
  induction keys generalizing acc with
  | nil => simp [scanPageAcc]
  | cons name rest ih =>
    have hstep : scanPageAcc (name :: rest) acc =
        scanPageAcc rest
          (if beforeColon name ≠ "" ∧ beforeColon name ≠ NO_KEY
           then setAdd acc (beforeColon name) else acc) := rfl
    rw [hstep, ih]
    by_cases hc : beforeColon name ≠ "" ∧ beforeColon name ≠ NO_KEY
    · rw [if_pos hc, mem_setAdd]
      constructor
      · rintro ((hx | rfl) | ⟨h1, h2, k, hk, hbk⟩)
        · exact Or.inl hx
        · exact Or.inr ⟨hc.1, hc.2, name, List.mem_cons_self _ _, rfl⟩
        · exact Or.inr ⟨h1, h2, k, List.mem_cons_of_mem _ hk, hbk⟩
      · rintro (hx | ⟨h1, h2, k, hk, hbk⟩)
        · exact Or.inl (Or.inl hx)
        · rcases List.mem_cons.mp hk with rfl | hk'
          · exact Or.inl (Or.inr hbk.symm)
          · exact Or.inr ⟨h1, h2, k, hk', hbk⟩
    · rw [if_neg hc]
      constructor
      · rintro (hx | ⟨h1, h2, k, hk, hbk⟩)
        · exact Or.inl hx
        · exact Or.inr ⟨h1, h2, k, List.mem_cons_of_mem _ hk, hbk⟩
      · rintro (hx | ⟨h1, h2, k, hk, hbk⟩)
        · exact Or.inl hx
        · rcases List.mem_cons.mp hk with rfl | hk'
          · subst hbk
            exact absurd ⟨h1, h2⟩ hc
          · exact Or.inr ⟨h1, h2, k, hk', hbk⟩

theorem nodup_scanPageAcc (keys : List String) (acc : List String)
    (h : acc.Nodup) : (scanPageAcc keys acc).Nodup := by
  induction keys generalizing acc with
  | nil => exact h
  | cons name rest ih =>
    have hstep : scanPageAcc (name :: rest) acc =
        scanPageAcc rest
          (if beforeColon name ≠ "" ∧ beforeColon name ≠ NO_KEY
           then setAdd acc (beforeColon name) else acc) := rfl
    rw [hstep]
    by_cases hc : beforeColon name ≠ "" ∧ beforeColon name ≠ NO_KEY
    · rw [if_pos hc]
      exact ih _ (nodup_setAdd _ _ h)
    · rw [if_neg hc]
      exact ih _ h

theorem mem_distinctLoop (pages : List KVListPage) (scanned : Nat)
    (acc : List String) (x : String) :
    x ∈ distinctLoop pages scanned acc ↔
      x ∈ acc ∨ (x ≠ "" ∧ x ≠ NO_KEY ∧
        ∃ k ∈ scannedKeys pages scanned, beforeColon k = x) := by
  induction pages generalizing scanned acc with
  | nil => simp [distinctLoop, scannedKeys]
  | cons page rest ih =>
    by_cases hb : scanned < 2000
    · by_cases hf : page.list_complete = some false
      · have h1 : distinctLoop (page :: rest) scanned acc =
            distinctLoop rest (scanned + page.keys.length)
              (scanPageAcc page.keys acc) := by
          simp [distinctLoop, hb, hf]
        have h2 : scannedKeys (page :: rest) scanned =
            page.keys ++ scannedKeys rest (scanned + page.keys.length) := by
          simp [scannedKeys, hb, hf]
        rw [h1, ih, mem_scanPageAcc, h2]
        constructor
        · rintro ((hx | ⟨h3, h4, k, hk, hbk⟩) | ⟨h3, h4, k, hk, hbk⟩)
          · exact Or.inl hx
          · exact Or.inr ⟨h3, h4, k, List.mem_append_left _ hk, hbk⟩
          · exact Or.inr ⟨h3, h4, k, List.mem_append_right _ hk, hbk⟩
        · rintro (hx | ⟨h3, h4, k, hk, hbk⟩)
          · exact Or.inl (Or.inl hx)
          · rcases List.mem_append.mp hk with hk' | hk'
            · exact Or.inl (Or.inr ⟨h3, h4, k, hk', hbk⟩)
            · exact Or.inr ⟨h3, h4, k, hk', hbk⟩
      · have h1 : distinctLoop (page :: rest) scanned acc =
            scanPageAcc page.keys acc := by
          simp [distinctLoop, hb, hf]
        have h2 : scannedKeys (page :: rest) scanned = page.keys := by
          simp [scannedKeys, hb, hf]
        rw [h1, mem_scanPageAcc, h2]
    · have h1 : distinctLoop (page :: rest) scanned acc = acc := by
        simp [distinctLoop, hb]
      have h2 : scannedKeys (page :: rest) scanned = [] := by
        simp [scannedKeys, hb]
      rw [h1, h2]
      simp

theorem nodup_distinctLoop (pages : List KVListPage) (scanned : Nat)
    (acc : List String) (h : acc.Nodup) :
    (distinctLoop pages scanned acc).Nodup := by
  induction pages generalizing scanned acc with
  | nil => exact h
  | cons page rest ih =>
    by_cases hb : scanned < 2000
    · by_cases hf : page.list_complete = some false
      · rw [show distinctLoop (page :: rest) scanned acc =
            distinctLoop rest (scanned + page.keys.length)
              (scanPageAcc page.keys acc) from by simp [distinctLoop, hb, hf]]
        exact ih _ _ (nodup_scanPageAcc _ _ h)
      · rw [show distinctLoop (page :: rest) scanned acc =
            scanPageAcc page.keys acc from by simp [distinctLoop, hb, hf]]
        exact nodup_scanPageAcc _ _ h
    · rw [show distinctLoop (page :: rest) scanned acc = acc from by
        simp [distinctLoop, hb]]
      exact h

theorem distinctLoop_complete_stop (page : KVListPage)
    (rest : List KVListPage) (scanned : Nat) (acc : List String)
    (h : page.list_complete ≠ some false) :
    distinctLoop (page :: rest) scanned acc =
      distinctLoop [page] scanned acc := by
  by_cases hb : scanned < 2000
  · simp [distinctLoop, hb, h]
  · simp [distinctLoop, hb]

theorem distinctLoop_budget (pre post : List KVListPage) (scanned : Nat)
    (acc : List String) (h : 2000 ≤ scanned + pagesKeyCount pre) :
    distinctLoop (pre ++ post) scanned acc = distinctLoop pre scanned acc := by
  induction pre generalizing scanned acc with
  | nil =>
    have h0 : ¬ scanned < 2000 := by
      simp [pagesKeyCount] at h
      omega
    cases post with
    | nil => rfl
    | cons q qs => simp [distinctLoop, h0]
  | cons page rest ih =>
    by_cases hb : scanned < 2000
    · by_cases hf : page.list_complete = some false
      · have hcount :
            2000 ≤ (scanned + page.keys.length) + pagesKeyCount rest := by
          simp [pagesKeyCount] at h ⊢
          omega
        rw [show distinctLoop ((page :: rest) ++ post) scanned acc =
            distinctLoop (rest ++ post) (scanned + page.keys.length)
              (scanPageAcc page.keys acc) from by simp [distinctLoop, hb, hf]]
        rw [show distinctLoop (page :: rest) scanned acc =
            distinctLoop rest (scanned + page.keys.length)
              (scanPageAcc page.keys acc) from by simp [distinctLoop, hb, hf]]
        exact ih _ _ hcount
      · simp [distinctLoop, hb, hf]
    · simp [distinctLoop, hb]

theorem scannedKeys_subset (pages : List KVListPage) (scanned : Nat)
    (k : String) (hk : k ∈ scannedKeys pages scanned) :
    ∃ page ∈ pages, k ∈ page.keys := by
  induction pages generalizing scanned with
  | nil => simp [scannedKeys] at hk
  | cons page rest ih =>
    by_cases hb : scanned < 2000
    · by_cases hf : page.list_complete = some false
      · rw [show scannedKeys (page :: rest) scanned =
            page.keys ++ scannedKeys rest (scanned + page.keys.length) from by
          simp [scannedKeys, hb, hf]] at hk
        rcases List.mem_append.mp hk with h | h
        · exact ⟨page, List.mem_cons_self _ _, h⟩
        · obtain ⟨q, hq, hkq⟩ := ih _ h
          exact ⟨q, List.mem_cons_of_mem _ hq, hkq⟩
      · rw [show scannedKeys (page :: rest) scanned = page.keys from by
          simp [scannedKeys, hb, hf]] at hk
        exact ⟨page, List.mem_cons_self _ _, hk⟩
    · rw [show scannedKeys (page :: rest) scanned = [] from by
        simp [scannedKeys, hb]] at hk
      simp at hk

/-- Claim C5: the namespace scan returns the prefixes before the first
`':'` of the scanned key names (excluding the empty prefix and
`NO-KEY`), sorted ascending with no duplicates; it scans a page's keys
only while the previous page was reported incomplete and fewer than 2000
keys were scanned, so later pages never affect the result once a page is
complete or the budget is exhausted, and a store containing only
`NO-KEY` keys yields the empty set. -/
theorem c5_distinct_scan (pages : List KVListPage) :
    List.Sorted (· ≤ ·) (handleListDistinctKeys pages)
    ∧ (handleListDistinctKeys pages).Nodup
    ∧ (∀ x, x ∈ handleListDistinctKeys pages ↔
        x ≠ "" ∧ x ≠ NO_KEY ∧ ∃ k ∈ scannedKeys pages 0, beforeColon k = x)
    ∧ (∀ page rest, page.list_complete ≠ some false →
        handleListDistinctKeys (page :: rest) = handleListDistinctKeys [page])
    ∧ (∀ pre post, 2000 ≤ pagesKeyCount pre →
        handleListDistinctKeys (pre ++ post) = handleListDistinctKeys pre)
    ∧ ((∀ page ∈ pages, ∀ k ∈ page.keys, beforeColon k = NO_KEY) →
        handleListDistinctKeys pages = []) := by
  refine ⟨?_, ?_, ?_, ?_, ?_, ?_⟩
  · exact List.sorted_insertionSort _ _
  · exact (List.perm_insertionSort _ _).nodup_iff.mpr
      (nodup_distinctLoop pages 0 [] List.nodup_nil)
  · intro x
    rw [handleListDistinctKeys, (List.perm_insertionSort _ _).mem_iff,
      mem_distinctLoop]
    simp
  · intro page rest h
    unfold handleListDistinctKeys
    rw [distinctLoop_complete_stop page rest 0 [] h]
  · intro pre post h
    unfold handleListDistinctKeys
    rw [distinctLoop_budget pre post 0 [] (by simpa using h)]
  · intro hall
    have hnone : ∀ x, x ∉ handleListDistinctKeys pages := by
      intro x hx
      rw [handleListDistinctKeys, (List.perm_insertionSort _ _).mem_iff,
        mem_distinctLoop] at hx
      rcases hx with hx | ⟨h1, h2, k, hk, hbk⟩
      · simp at hx
      · obtain ⟨page, hpage, hkpage⟩ := scannedKeys_subset pages 0 k hk
        exact h2 (by rw [← hbk, hall page hpage k hkpage])
    exact List.eq_nil_iff_forall_not_mem.mpr hnone

/-- Witness for C5 at a concrete complete first page: the second page is
ignored. -/
theorem c5_distinct_scan_witness :
    (KVListPage.mk ["demo:1"] (some true) none).list_complete ≠ some false
    ∧ handleListDistinctKeys [KVListPage.mk ["demo:1"] (some true) none,
        KVListPage.mk ["other:2"] (some true) none] =
      handleListDistinctKeys [KVListPage.mk ["demo:1"] (some true) none] :=
  ⟨by decide,
    (c5_distinct_scan []).2.2.2.1 (KVListPage.mk ["demo:1"] (some true) none)
      [KVListPage.mk ["other:2"] (some true) none] (by decide)⟩

end WebhookWorker
